import Mathlib

/-!
Shallow embedding of the medical cost estimator and hospital matcher
(`src/code.py`).  The script loads a hospital directory, reads the
interactive inputs, validates the chosen treatment against a static cost
table and the hospital type against the three tiers, computes a point
estimate as the midpoint of the base range plus additive adjustments, and
filters the directory by lower-cased substring match on treatments and
city, with a treatment-only fallback when the strict query is empty.

Python string operations are embedded on `String` as list-of-character
functions: `.lower()` maps `Char.toLower` over the characters, `.strip()`
drops whitespace at both ends, `.title()` upper-cases the first letter of
every alphabetic run.  `pandas.Series.str.contains` defaults to
`regex=True`, so it is embedded as a regular-expression search
(`compilePattern` / `searchRegex`) over a modelled fragment of Python
`re`; an invalid pattern is the uncaught `re.error` abort.  For patterns
free of regex metacharacters — every validated treatment key is such —
the search coincides with plain substring containment (`strContains`),
and the literal-model filters below are proved equivalent to the regex
ones on that slice.  Costs are integers in the source table; arithmetic
on the estimate is exact in the values involved, so it is embedded over
`ℚ`.
-/

namespace CostEstimator

/-- Python `str.lower()`: lower-case every character. -/
def strLower (s : String) : String := ⟨s.data.map Char.toLower⟩

/-- Python `str.strip()`: drop whitespace from both ends. -/
def stripChars (l : List Char) : List Char :=
  ((l.dropWhile Char.isWhitespace).reverse.dropWhile Char.isWhitespace).reverse

/-- Python `str.strip()` on strings. -/
def strStrip (s : String) : String := ⟨stripChars s.data⟩

/-- Python `str.title()` helper: the Bool records whether the previous
character was alphabetic. -/
def titleAux : Bool → List Char → List Char
  | _, [] => []
  | prevAlpha, c :: rest =>
    if c.isAlpha then
      (if prevAlpha then c.toLower else c.toUpper) :: titleAux true rest
    else
      c :: titleAux false rest

/-- Python `str.title()`. -/
def strTitle (s : String) : String := ⟨titleAux false s.data⟩

/-- Substring occurrence check: does the character list contain `q` as a
contiguous run?  Second argument is the text searched. -/
def infixCheck (q : List Char) : List Char → Bool
  | [] => q.isEmpty
  | c :: rest => q.isPrefixOf (c :: rest) || infixCheck q rest

/-- `s` contains `q` as a substring: the literal-pattern reading of
`str.contains`, valid exactly when `q` is free of regex metacharacters
(`searchRegex_lit` proves the equivalence with the regex semantics). -/
def strContains (s q : String) : Bool := infixCheck q.data s.data

/-- One row of the hospital directory after column normalisation:
`hospital name`, `best_treatments`, `city`, `hospital_type`. -/
structure HospitalRecord where
  name : String
  best_treatments : String
  city : String
  hospital_type : String
deriving DecidableEq

/-- Lines 32-34 of the script: `fillna("").astype(str).str.strip()` on the
three text columns (embedding rows that are present as strings; a missing
cell is the empty string, which strips to itself). -/
def loadRecord (r : HospitalRecord) : HospitalRecord :=
  { r with
    best_treatments := strStrip r.best_treatments
    city := strStrip r.city
    hospital_type := strStrip r.hospital_type }

/-- The static treatment cost table (lines 39-48), an association list
mirroring the nested dict: treatment key to tier to `(min, max)`. -/
def treatment_costs : List (String × List (String × (Int × Int))) :=
  [("cold/flu",
     [("public", (50, 200)), ("private", (300, 600)), ("specialty", (800, 1200))]),
   ("fever",
     [("public", (50, 250)), ("private", (300, 600)), ("specialty", (1000, 1800))]),
   ("diabetes check-up",
     [("public", (0, 0)), ("private", (600, 1200)), ("specialty", (2500, 4000))]),
   ("orthopedic",
     [("public", (5000, 8000)), ("private", (20000, 25000)), ("specialty", (35000, 40000))]),
   ("cardiac",
     [("public", (70000, 100000)), ("private", (150000, 200000)), ("specialty", (300000, 350000))]),
   ("neurology",
     [("public", (40000, 60000)), ("private", (120000, 150000)), ("specialty", (250000, 300000))]),
   ("skin allergy",
     [("public", (100, 300)), ("private", (600, 2000)), ("specialty", (3000, 3500))]),
   ("dental care",
     [("public", (300, 600)), ("private", (2000, 2500)), ("specialty", (4000, 5000))])]

/-- The treatment keys of the cost table (the dict keys). -/
def treatmentKeys : List String := treatment_costs.map Prod.fst

/-- The three hospital tiers accepted at line 77. -/
def tierNames : List String := ["public", "private", "specialty"]

/-- Dict lookup `treatment_costs[treatment]` as an Option. -/
def lookupTreatment (t : String) : Option (List (String × (Int × Int))) :=
  treatment_costs.lookup t

/-- Line 84: `treatment_costs[treatment].get(hospital_type, (0, 0))`.
The outer indexing is only reached with a validated treatment, so the
`getD []` stands for the guaranteed dict hit; the `(0, 0)` is the literal
default of `.get`. -/
def baseRange (treatment tier : String) : Int × Int :=
  (((lookupTreatment treatment).getD []).lookup tier).getD (0, 0)

/-- Average of a cost range, `(min + max) / 2` in exact arithmetic. -/
def rangeAverage (p : Int × Int) : ℚ := ((p.1 : ℚ) + (p.2 : ℚ)) / 2

/-- Lines 84-92: the point estimate.  `smoker` is the raw lower-cased
answer string (anything other than `"yes"` counts as no). -/
def estimated_cost (treatment tier smoker : String) (bmi : ℚ) (age : Int) : ℚ :=
  let base := baseRange treatment tier
  let e0 : ℚ := ((base.1 : ℚ) + (base.2 : ℚ)) / 2
  let e1 := if smoker = "yes" then e0 + 1000 else e0
  let e2 := if bmi > 30 then e1 + 500 else e1
  if age > 60 then e2 + 1000 else e2

/-- Line 113, left conjunct: the lower-cased treatments field contains the
lower-cased treatment query. -/
def btMatch (t : String) (r : HospitalRecord) : Bool :=
  strContains (strLower r.best_treatments) (strLower t)

/-- Line 113, right conjunct: the lower-cased city field contains the
lower-cased city query. -/
def cityMatch (c : String) (r : HospitalRecord) : Bool :=
  strContains (strLower r.city) (strLower c)

/-- Line 113-115: the strict query, `hospital_df[mask]`. -/
def primaryFilter (dir : List HospitalRecord) (t c : String) : List HospitalRecord :=
  dir.filter fun r => btMatch t r && cityMatch c r

/-- Line 119: the relaxed query keeping only the treatment constraint. -/
def treatmentFilter (dir : List HospitalRecord) (t : String) : List HospitalRecord :=
  dir.filter fun r => btMatch t r

/-- Lines 113-119 in the literal-pattern reading: the matcher for
queries free of regex metacharacters (`matcher_spec` proves it agrees
with the regex matcher on that slice).  Returns the selected rows and
whether the fallback path (the warning branch) was taken. -/
def matchHospitals (dir : List HospitalRecord) (t c : String) :
    List HospitalRecord × Bool :=
  let nearby := primaryFilter dir t c
  if nearby.isEmpty then (treatmentFilter dir t, true) else (nearby, false)

/-- Lines 123-126: the display label.  The `hospital_type` column always
exists after the required-column check and the rename, so the branch
without parentheses (lines 127-131) is unreachable. -/
def hospital_info (r : HospitalRecord) : String :=
  r.name ++ " (" ++ strTitle r.hospital_type ++ ")"

/-- Line 135: label and city of the matched rows, truncated to 10. -/
def nearby_display (l : List HospitalRecord) : List (String × String) :=
  (l.map fun r => (hospital_info r, r.city)).take 10

/-- Shape of the regular-expression fragment modelled from Python `re`
for `pandas.Series.str.contains` (lines 113 and 119): literal
characters, the dot, concatenation, alternation and Kleene star (the
`+` and `?` quantifiers are encoded with star and alternation). -/
inductive Regex where
  | fail
  | emptyStr
  | char : Char → Regex
  | dot
  | concat : Regex → Regex → Regex
  | alt : Regex → Regex → Regex
  | star : Regex → Regex
deriving DecidableEq

/-- Does the pattern accept the empty string? -/
def nullable : Regex → Bool
  | .fail => false
  | .emptyStr => true
  | .char _ => false
  | .dot => false
  | .concat a b => nullable a && nullable b
  | .alt a b => nullable a || nullable b
  | .star _ => true

/-- Concatenation simplifying a failed or empty left factor. -/
def rconcat : Regex → Regex → Regex
  | .fail, _ => .fail
  | .emptyStr, b => b
  | a, b => .concat a b

/-- Brzozowski derivative: the residual pattern after reading one
character.  The dot matches any character except the newline, as in
Python without `re.DOTALL`. -/
def deriv : Regex → Char → Regex
  | .fail, _ => .fail
  | .emptyStr, _ => .fail
  | .char c, d => if c = d then .emptyStr else .fail
  | .dot, d => if d = '\n' then .fail else .emptyStr
  | .concat a b, d =>
    if nullable a then .alt (rconcat (deriv a d) b) (deriv b d)
    else rconcat (deriv a d) b
  | .alt a b, d => .alt (deriv a d) (deriv b d)
  | .star a, d => rconcat (deriv a d) (.star a)

/-- Does the pattern match some prefix of the text? -/
def startMatch : Regex → List Char → Bool
  | r, [] => nullable r
  | r, c :: rest => nullable r || startMatch (deriv r c) rest

/-- `re.search` as a Boolean: does the pattern match somewhere inside
the text?  `str.contains` is exactly the truth of this search. -/
def searchRegex (r : Regex) : List Char → Bool
  | [] => nullable r
  | c :: rest => startMatch r (c :: rest) || searchRegex r rest

/-- Characters that stand for themselves in a pattern: the complement
of the Python `re` metacharacter set. -/
def literalChar (c : Char) : Bool :=
  !(c == '.' || c == '^' || c == '$' || c == '*' || c == '+' || c == '?' ||
    c == '{' || c == '}' || c == '[' || c == ']' || c == '\\' || c == '|' ||
    c == '(' || c == ')')

/-- The pattern matching a literal character sequence. -/
def litRegex : List Char → Regex
  | [] => .emptyStr
  | c :: cs => .concat (.char c) (litRegex cs)

/-- After a quantifier: an optional lazy marker `?`; a further
quantifier is the `multiple repeat` error of Python `re`. -/
def quantLazy (r : Regex) : List Char → Option (Regex × List Char)
  | [] => some (r, [])
  | c :: rest =>
    if c == '?' then
      match rest with
      | [] => some (r, [])
      | d :: _ => if d == '*' || d == '+' || d == '?' then none else some (r, rest)
    else if c == '*' || c == '+' then none
    else some (r, c :: rest)

/-- Apply an optional `*`, `+` or `?` quantifier to a parsed atom. -/
def applyQuant (a : Regex) : List Char → Option (Regex × List Char)
  | [] => some (a, [])
  | c :: rest =>
    if c == '*' then quantLazy (.star a) rest
    else if c == '+' then quantLazy (.concat a (.star a)) rest
    else if c == '?' then quantLazy (.alt .emptyStr a) rest
    else some (a, c :: rest)

mutual

/-- Parse an alternation of `|`-separated concatenations.  The fuel
argument decreases on every call; `compilePattern` supplies enough for
the whole input. -/
def parseAlt : Nat → List Char → Option (Regex × List Char)
  | 0, _ => none
  | fuel + 1, l =>
    match parseCat fuel l with
    | none => none
    | some (r, rest) =>
      match rest with
      | '|' :: rest2 =>
        match parseAlt fuel rest2 with
        | none => none
        | some (r2, rest3) => some (.alt r r2, rest3)
      | _ => some (r, rest)

/-- Parse a concatenation of quantified atoms, stopping at `|`, `)` or
the end of the pattern. -/
def parseCat : Nat → List Char → Option (Regex × List Char)
  | 0, _ => none
  | _ + 1, [] => some (.emptyStr, [])
  | fuel + 1, c :: rest =>
    if c == ')' || c == '|' then some (.emptyStr, c :: rest)
    else
      match parseAtom fuel (c :: rest) with
      | none => none
      | some (a, rest2) =>
        match applyQuant a rest2 with
        | none => none
        | some (a2, rest3) =>
          match parseCat fuel rest3 with
          | none => none
          | some (b, rest4) => some (.concat a2 b, rest4)

/-- Parse one atom: a group, a dot, an escaped punctuation character or
an ordinary character.  Character classes, anchors, counted repeats and
the letter escapes are outside the modelled fragment. -/
def parseAtom : Nat → List Char → Option (Regex × List Char)
  | 0, _ => none
  | _ + 1, [] => none
  | fuel + 1, c :: rest =>
    if c == '(' then
      match parseAlt fuel rest with
      | some (r, ')' :: rest2) => some (r, rest2)
      | _ => none
    else if c == '.' then some (.dot, rest)
    else if c == '\\' then
      match rest with
      | [] => none
      | d :: rest2 => if d.isAlphanum then none else some (.char d, rest2)
    else if literalChar c then some (.char c, rest)
    else none

end

/-- `re.compile` over the modelled fragment: `some` when the pattern
parses and is fully consumed, `none` for the `re.error` aborts
(unbalanced groups, dangling or repeated quantifiers, bad escapes) and
for the constructs outside the fragment. -/
def compilePattern (s : String) : Option Regex :=
  match parseAlt (3 * s.length + 3) s.data with
  | some (r, []) => some r
  | _ => none

/-- Line 113, left conjunct, regex semantics: the compiled treatment
pattern is searched in the lower-cased treatments field. -/
def btMatchRe (tre : Regex) (r : HospitalRecord) : Bool :=
  searchRegex tre (strLower r.best_treatments).data

/-- Line 113, right conjunct, regex semantics: the compiled city
pattern is searched in the lower-cased city field. -/
def cityMatchRe (cre : Regex) (r : HospitalRecord) : Bool :=
  searchRegex cre (strLower r.city).data

/-- Lines 113-115 under regex semantics: the strict query. -/
def primaryFilterRe (dir : List HospitalRecord) (tre cre : Regex) :
    List HospitalRecord :=
  dir.filter fun r => btMatchRe tre r && cityMatchRe cre r

/-- Line 119 under regex semantics: the treatment-only query. -/
def treatmentFilterRe (dir : List HospitalRecord) (tre : Regex) :
    List HospitalRecord :=
  dir.filter fun r => btMatchRe tre r

/-- The uncaught `re.error` raised at line 113 by an invalid pattern. -/
inductive RegexError where
  | regexFail
deriving DecidableEq

instance instDecEqExcept {e a : Type} [DecidableEq e] [DecidableEq a] :
    DecidableEq (Except e a) := fun x y =>
  match x, y with
  | Except.error e1, Except.error e2 =>
    if h : e1 = e2 then isTrue (h ▸ rfl)
    else isFalse fun hc => h (Except.error.inj hc)
  | Except.ok a1, Except.ok a2 =>
    if h : a1 = a2 then isTrue (h ▸ rfl)
    else isFalse fun hc => h (Except.ok.inj hc)
  | Except.error _, Except.ok _ => isFalse fun hc => Except.noConfusion hc
  | Except.ok _, Except.error _ => isFalse fun hc => Except.noConfusion hc

/-- Lines 105-119 under the faithful regex semantics of
`str.contains`: lower-case and compile the queries (an invalid pattern
raises), filter, and fall back to the treatment-only query when the
strict query is empty. -/
def matchHospitalsRe (dir : List HospitalRecord) (t c : String) :
    Except RegexError (List HospitalRecord × Bool) :=
  match compilePattern (strLower t) with
  | none => .error .regexFail
  | some tre =>
    match compilePattern (strLower c) with
    | none => .error .regexFail
    | some cre =>
      let nearby := primaryFilterRe dir tre cre
      .ok (if nearby.isEmpty then (treatmentFilterRe dir tre, true) else (nearby, false))

/-- The abnormal terminations of the interactive run (each is a
`sys.exit(1)` after a user-facing message, lines 58-79). -/
inductive RunError where
  | invalidNumeric
  | unknownTreatment
  | invalidTier
deriving DecidableEq

/-- The estimate summary block (lines 94-100): everything printed
before the hospital table. -/
structure Summary where
  estimate : ℚ
  range : Int × Int
deriving DecidableEq

/-- The hospital table block (lines 113-146): the matched rows with the
fallback flag and the truncated display table. -/
structure MatchBlock where
  results : List HospitalRecord
  usedFallback : Bool
  display : List (String × String)
deriving DecidableEq

/-- Lines 54-146 of the script as one function of the session inputs.
`ageIn`/`bmiIn` are the results of `int(...)`/`float(...)` on the typed
text (`none` when parsing raises, line 58).  The remaining inputs carry
the raw text; `.strip().lower()` is applied here as at lines 63-71.  The
directory is the loaded frame.  The outer `Except` is a validation
abort, which happens before anything is printed.  A successful
validation always produces the summary (printed at lines 94-100)
together with the outcome of the matching step, which can itself abort
with `re.error` at line 113 when the city pattern does not compile —
after the summary is already out. -/
def run (ageIn : Option Int) (bmiIn : Option ℚ)
    (smokerIn cityIn treatmentIn tierIn : String)
    (dir : List HospitalRecord) :
    Except RunError (Summary × Except RegexError MatchBlock) :=
  match ageIn with
  | none => .error .invalidNumeric
  | some age =>
  match bmiIn with
  | none => .error .invalidNumeric
  | some bmi =>
    let smoker := strLower (strStrip smokerIn)
    let city := strLower (strStrip cityIn)
    let treatment := strLower (strStrip treatmentIn)
    let tier := strLower (strStrip tierIn)
    if lookupTreatment treatment = none then
      .error .unknownTreatment
    else if ¬ (tier = "public" ∨ tier = "private" ∨ tier = "specialty") then
      .error .invalidTier
    else
      .ok ({ estimate := estimated_cost treatment tier smoker bmi age
             range := baseRange treatment tier },
        match matchHospitalsRe dir treatment city with
        | .error e => .error e
        | .ok found =>
          .ok { results := found.1
                usedFallback := found.2
                display := nearby_display found.1 })

/-- A directory row used in concrete checks: mixed-case fields, all
present. -/
def apolloRecord : HospitalRecord :=
  { name := "Apollo", best_treatments := "Cardiac Surgery",
    city := "Mumbai", hospital_type := "private" }

/-- A directory row whose city cell is empty after stripping. -/
def emptyCityRecord : HospitalRecord :=
  { name := "CityCare Hospital", best_treatments := "cardiac",
    city := "", hospital_type := "private" }

/-- A directory row whose hospital type cell is empty after stripping. -/
def untypedRecord : HospitalRecord :=
  { name := "CityCare Hospital", best_treatments := "cardiac",
    city := "mumbai", hospital_type := "" }

/-- A directory row whose city field matches the regex `st. louis`
(dot = any character) but does not contain it as a substring. -/
def stlRecord : HospitalRecord :=
  { name := "General", best_treatments := "cardiac",
    city := "stx louis", hospital_type := "public" }

/-- A raw row whose treatments cell strips to empty. -/
def noTreatmentsRecord : HospitalRecord :=
  { name := "NoTreatments", best_treatments := "  ",
    city := "mumbai", hospital_type := "" }

/-- A raw row whose city cell strips to empty. -/
def noCityRecord : HospitalRecord :=
  { name := "NoCity", best_treatments := "cardiac",
    city := "  ", hospital_type := "" }

/-- The compiled form of the pattern `x*`, which matches the empty
string. -/
def xStarRegex : Regex :=
  Regex.concat (Regex.star (Regex.char 'x')) Regex.emptyStr

/-- Summary of the run with treatment `dental care`, tier `private`,
smoker `no`, bmi 22, age 30. -/
def runSummary1 : Summary := { estimate := 2250, range := (2000, 2500) }

/-- Summary of the run with treatment `dental care`, tier `private`,
smoker `yes`, bmi 40, age 70 (all three adjustments). -/
def runSummary2 : Summary := { estimate := 4750, range := (2000, 2500) }

/-- Match block of a run over the empty directory. -/
def runMatch0 : MatchBlock :=
  { results := [], usedFallback := true, display := [] }

/-! Helper lemmas about the string embedding and the matcher. -/

lemma infixCheck_nil_left (l : List Char) : infixCheck [] l = true := by
  cases l <;> simp [infixCheck]

lemma strContains_empty_query (s : String) : strContains s "" = true :=
  infixCheck_nil_left s.data

lemma data_ne_nil_of_ne_empty {s : String} (h : s ≠ "") : s.data ≠ [] :=
  fun hd => h (String.ext hd)

lemma strLower_data (s : String) : (strLower s).data = s.data.map Char.toLower := rfl

lemma strLower_data_ne_nil {s : String} (h : s ≠ "") : (strLower s).data ≠ [] := by
  rw [strLower_data]
  simp only [ne_eq, List.map_eq_nil_iff]
  exact data_ne_nil_of_ne_empty h

lemma strContains_empty_field {q : String} (h : q ≠ "") :
    strContains "" (strLower q) = false := by
  show (strLower q).data.isEmpty = false
  rcases hq : (strLower q).data with _ | ⟨a, as⟩
  · exact absurd hq (strLower_data_ne_nil h)
  · rfl

lemma btMatch_empty_field {t : String} {r : HospitalRecord}
    (hr : r.best_treatments = "") (ht : t ≠ "") : btMatch t r = false := by
  unfold btMatch
  rw [hr]
  exact strContains_empty_field ht

lemma cityMatch_empty_field {c : String} {r : HospitalRecord}
    (hr : r.city = "") (hc : c ≠ "") : cityMatch c r = false := by
  unfold cityMatch
  rw [hr]
  exact strContains_empty_field hc

lemma btMatch_of_mem_match {dir : List HospitalRecord} {t c : String}
    {r : HospitalRecord} (h : r ∈ (matchHospitals dir t c).1) :
    btMatch t r = true := by
  simp only [matchHospitals] at h
  split at h
  · simp only [treatmentFilter, List.mem_filter] at h
    exact h.2
  · simp only [primaryFilter, List.mem_filter, Bool.and_eq_true] at h
    exact h.2.1

lemma run_ok_range {age : Int} {bmi : ℚ} {s c tIn kIn : String}
    {dir : List HospitalRecord} {out : Summary × Except RegexError MatchBlock}
    (h : run (some age) (some bmi) s c tIn kIn dir = Except.ok out) :
    out.1.range = baseRange (strLower (strStrip tIn)) (strLower (strStrip kIn)) := by
  simp only [run] at h
  split at h
  · exact Except.noConfusion h
  · split at h
    · exact Except.noConfusion h
    · injection h with h
      rw [← h]

lemma startMatch_fail (l : List Char) : startMatch .fail l = false := by
  induction l with
  | nil => rfl
  | cons c rest ih => simp [startMatch, deriv, nullable, ih]

lemma nullable_lit (q : List Char) : nullable (litRegex q) = q.isEmpty := by
  cases q <;> simp [litRegex, nullable, List.isEmpty]

lemma startMatch_lit (q : List Char) :
    ∀ l, startMatch (litRegex q) l = q.isPrefixOf l := by
  induction q with
  | nil =>
    intro l
    cases l <;> simp [startMatch, litRegex, nullable, List.isPrefixOf]
  | cons c cs ih =>
    intro l
    cases l with
    | nil => simp [startMatch, litRegex, nullable, List.isPrefixOf]
    | cons d ds =>
      by_cases hcd : c = d
      · subst hcd
        simp [startMatch, litRegex, nullable, deriv, rconcat, List.isPrefixOf, ih ds]
      · simp [startMatch, litRegex, nullable, deriv, rconcat, hcd, List.isPrefixOf,
          startMatch_fail]

lemma searchRegex_lit (q : List Char) :
    ∀ l, searchRegex (litRegex q) l = infixCheck q l := by
  intro l
  induction l with
  | nil => simp [searchRegex, infixCheck, nullable_lit]
  | cons c rest ih =>
    simp only [searchRegex, infixCheck]
    rw [startMatch_lit, ih]

lemma searchRegex_strContains (q s : String) :
    searchRegex (litRegex q.data) s.data = strContains s q :=
  searchRegex_lit q.data s.data

lemma literalChar_ne {c : Char} (h : literalChar c = true) :
    c ≠ '.' ∧ c ≠ '^' ∧ c ≠ '$' ∧ c ≠ '*' ∧ c ≠ '+' ∧ c ≠ '?' ∧
    c ≠ '{' ∧ c ≠ '}' ∧ c ≠ '[' ∧ c ≠ ']' ∧ c ≠ '\\' ∧ c ≠ '|' ∧
    c ≠ '(' ∧ c ≠ ')' := by
  simp [literalChar] at h
  simpa [and_assoc] using h

lemma parseAtom_literal {c : Char} (rest : List Char) (hc : literalChar c = true)
    {fuel : Nat} (hf : 1 ≤ fuel) :
    parseAtom fuel (c :: rest) = some (.char c, rest) := by
  obtain ⟨h1, h2, h3, h4, h5, h6, h7, h8, h9, h10, h11, h12, h13, h14⟩ :=
    literalChar_ne hc
  match fuel, hf with
  | f + 1, _ => simp [parseAtom, h13, h1, h11, hc]

lemma applyQuant_literal (a : Regex) (rest : List Char)
    (h : ∀ d ∈ rest, literalChar d = true) :
    applyQuant a rest = some (a, rest) := by
  cases rest with
  | nil => rfl
  | cons d ds =>
    obtain ⟨g1, g2, g3, g4, g5, g6, g7, g8, g9, g10, g11, g12, g13, g14⟩ :=
      literalChar_ne (h d (by simp))
    simp [applyQuant, g4, g5, g6]

lemma parseCat_literal :
    ∀ (q : List Char), (∀ c ∈ q, literalChar c = true) →
    ∀ fuel : Nat, q.length + 1 ≤ fuel → parseCat fuel q = some (litRegex q, []) := by
  intro q
  induction q with
  | nil =>
    intro _ fuel hf
    match fuel, hf with
    | f + 1, _ => rfl
  | cons c cs ih =>
    intro hq fuel hf
    have hc : literalChar c = true := hq c (by simp)
    have hcs : ∀ d ∈ cs, literalChar d = true := fun d hd => hq d (by simp [hd])
    match fuel, hf with
    | f + 1, hf =>
      have hflen : cs.length + 1 ≤ f := by
        simp only [List.length_cons] at hf
        omega
      obtain ⟨h1, h2, h3, h4, h5, h6, h7, h8, h9, h10, h11, h12, h13, h14⟩ :=
        literalChar_ne hc
      simp [parseCat, h12, h14,
        parseAtom_literal cs hc (show (1 : Nat) ≤ f by omega),
        applyQuant_literal (Regex.char c) cs hcs, ih hcs f hflen, litRegex]

lemma parseAlt_literal (q : List Char) (hq : ∀ c ∈ q, literalChar c = true)
    (fuel : Nat) (hf : q.length + 2 ≤ fuel) :
    parseAlt fuel q = some (litRegex q, []) := by
  match fuel, hf with
  | f + 1, hf =>
    have hflen : q.length + 1 ≤ f := by omega
    simp [parseAlt, parseCat_literal q hq f hflen]

lemma compile_literal (s : String) (hs : s.data.all literalChar = true) :
    compilePattern s = some (litRegex s.data) := by
  have hq : ∀ c ∈ s.data, literalChar c = true := fun c hc =>
    List.all_eq_true.mp hs c hc
  have hlen : s.data.length + 2 ≤ 3 * s.length + 3 := by
    have : s.length = s.data.length := rfl
    omega
  simp [compilePattern, parseAlt_literal s.data hq _ hlen]

/-- C2 counterexample: `str.contains` is a regex search, not substring
containment.  The city query `st. louis` (the dot matches any
character) selects the record whose city field is `stx louis` as a
primary hit, although that field does not contain the query as a
substring. -/
theorem substring_claim_cex :
    strContains (strLower stlRecord.city) (strLower "st. louis") = false ∧
    matchHospitalsRe [stlRecord] "cardiac" "st. louis"
      = Except.ok ([stlRecord], false) := by
  decide

/-- C2 amended: the comparison is lower-cased `str.contains` with regex
search semantics; for queries free of regex metacharacters — which
includes every validated treatment key — it coincides with substring
containment, and then the matcher behaves exactly as claimed: the
primary result is the records whose treatments field contains the
treatment query and whose city field contains the city query, an empty
primary result falls back to the treatment-only records with the
fallback flag set, and an empty fallback yields the empty sequence with
the flag set. -/
theorem matcher_spec (dir : List HospitalRecord) (t c : String)
    (ht : (strLower t).data.all literalChar = true)
    (hc : (strLower c).data.all literalChar = true) :
    matchHospitalsRe dir t c = Except.ok (matchHospitals dir t c) ∧
    (∀ r, r ∈ primaryFilter dir t c ↔
        r ∈ dir ∧ strContains (strLower r.best_treatments) (strLower t) = true
              ∧ strContains (strLower r.city) (strLower c) = true) ∧
    (primaryFilter dir t c ≠ [] →
        matchHospitals dir t c = (primaryFilter dir t c, false)) ∧
    (primaryFilter dir t c = [] →
        matchHospitals dir t c = (treatmentFilter dir t, true)) ∧
    (primaryFilter dir t c = [] → treatmentFilter dir t = [] →
        matchHospitals dir t c = ([], true)) := by
  have hbt : ∀ r : HospitalRecord,
      btMatchRe (litRegex (strLower t).data) r = btMatch t r := fun r =>
    searchRegex_strContains (strLower t) (strLower r.best_treatments)
  have hcity : ∀ r : HospitalRecord,
      cityMatchRe (litRegex (strLower c).data) r = cityMatch c r := fun r =>
    searchRegex_strContains (strLower c) (strLower r.city)
  have hpf : primaryFilterRe dir (litRegex (strLower t).data)
      (litRegex (strLower c).data) = primaryFilter dir t c := by
    unfold primaryFilterRe primaryFilter
    exact List.filter_congr fun r _ => by rw [hbt r, hcity r]
  have htf : treatmentFilterRe dir (litRegex (strLower t).data)
      = treatmentFilter dir t := by
    unfold treatmentFilterRe treatmentFilter
    exact List.filter_congr fun r _ => hbt r
  refine ⟨?_, ?_, ?_, ?_, ?_⟩
  · simp [matchHospitalsRe, compile_literal (strLower t) ht,
      compile_literal (strLower c) hc, hpf, htf, matchHospitals]
  · intro r
    simp [primaryFilter, List.mem_filter, btMatch, cityMatch, Bool.and_eq_true,
      and_assoc]
  · intro h
    simp [matchHospitals, List.isEmpty_iff, h]
  · intro h
    simp [matchHospitals, List.isEmpty_iff, h]
  · intro h1 h2
    simp [matchHospitals, List.isEmpty_iff, h1, h2]

/-- C2 witness: a mixed-case record matches the strict query
`treatment = "card"`, `city = "mumbai"` (both metacharacter-free), the
regex matcher agrees with the literal one, and the matcher returns the
primary result with the fallback flag clear. -/
theorem matcher_spec_witness :
    ((strLower "card").data.all literalChar = true ∧
     (strLower "mumbai").data.all literalChar = true ∧
     primaryFilter [apolloRecord] "card" "mumbai" ≠ []) ∧
    matchHospitalsRe [apolloRecord] "card" "mumbai"
      = Except.ok (matchHospitals [apolloRecord] "card" "mumbai") ∧
    matchHospitals [apolloRecord] "card" "mumbai"
      = (primaryFilter [apolloRecord] "card" "mumbai", false) :=
  ⟨⟨by decide, by decide, by decide⟩,
   (matcher_spec [apolloRecord] "card" "mumbai" (by decide) (by decide)).1,
   (matcher_spec [apolloRecord] "card" "mumbai" (by decide) (by decide)).2.2.1
     (by decide)⟩

/-- C9: every record of the strict (treatment AND city) result is in the
treatment-only result: relaxing the query loses no record. -/
theorem primary_subset_fallback (dir : List HospitalRecord) (t c : String)
    (r : HospitalRecord) (h : r ∈ primaryFilter dir t c) :
    r ∈ treatmentFilter dir t := by
  simp only [primaryFilter, List.mem_filter, Bool.and_eq_true] at h
  simp only [treatmentFilter, List.mem_filter]
  exact ⟨h.1, h.2.1⟩

/-- C9 witness at a concrete directory and query. -/
theorem primary_subset_fallback_witness :
    apolloRecord ∈ primaryFilter [apolloRecord] "card" "mumbai" ∧
    apolloRecord ∈ treatmentFilter [apolloRecord] "card" :=
  ⟨by decide,
   primary_subset_fallback [apolloRecord] "card" "mumbai" apolloRecord (by decide)⟩

/-- C10: with an empty city query the city containment check holds for
every record (an empty city field included), the primary result equals
the treatment-only result, and the fallback is taken exactly when no
record's treatments field contains the treatment query. -/
theorem empty_city_query (dir : List HospitalRecord) (t : String) :
    (∀ r : HospitalRecord, cityMatch "" r = true) ∧
    primaryFilter dir t "" = treatmentFilter dir t ∧
    ((matchHospitals dir t "").2 = true ↔ treatmentFilter dir t = []) := by
  have hc : ∀ r : HospitalRecord, cityMatch "" r = true := fun r =>
    strContains_empty_query (strLower r.city)
  have hp : primaryFilter dir t "" = treatmentFilter dir t := by
    unfold primaryFilter treatmentFilter
    refine List.filter_congr fun r _ => ?_
    rw [hc r, Bool.and_true]
  refine ⟨hc, hp, ?_⟩
  by_cases h : treatmentFilter dir t = []
  · simp [matchHospitals, hp, h]
  · simp [matchHospitals, hp, List.isEmpty_iff, h]

/-- C5 counterexample: a record whose city cell is empty does appear in
the returned results for a non-empty city query — the strict query misses
it, but the fallback drops the city constraint entirely, record side
included, and returns it. -/
theorem empty_city_record_returned :
    emptyCityRecord.city = "" ∧
    emptyCityRecord ∈ (matchHospitals [emptyCityRecord] "cardiac" "mumbai").1 ∧
    (matchHospitals [emptyCityRecord] "cardiac" "mumbai").2 = true := by
  decide

/-- C5 amended: a record whose stripped treatments field is empty never
appears in the matcher result (primary or fallback) when the compiled
treatment pattern does not match the empty string — every validated
treatment key is a non-empty literal, which is such a pattern.  A
record whose stripped city field is empty is excluded from the primary
result when the compiled city pattern does not match the empty string;
a regex city query that does match the empty string (such as `x*`)
makes the empty city field pass the city check, and the record can in
any case appear via the treatment-only fallback. -/
theorem empty_field_excluded (dir : List HospitalRecord) (t c : String)
    (tre cre : Regex)
    (ht : compilePattern (strLower t) = some tre)
    (hc : compilePattern (strLower c) = some cre)
    (raw : HospitalRecord) :
    (strStrip raw.best_treatments = "" → nullable tre = false →
        ∀ res, matchHospitalsRe dir t c = Except.ok res →
          loadRecord raw ∉ res.1) ∧
    (strStrip raw.city = "" → nullable cre = false →
        loadRecord raw ∉ primaryFilterRe dir tre cre) ∧
    (strStrip raw.city = "" → nullable cre = true →
        cityMatchRe cre (loadRecord raw) = true) := by
  have hbt0 : strStrip raw.best_treatments = "" →
      ∀ re : Regex, btMatchRe re (loadRecord raw) = nullable re := by
    intro hb re
    show searchRegex re (strLower (strStrip raw.best_treatments)).data = nullable re
    rw [hb]
    rfl
  have hcity0 : strStrip raw.city = "" →
      ∀ re : Regex, cityMatchRe re (loadRecord raw) = nullable re := by
    intro hb re
    show searchRegex re (strLower (strStrip raw.city)).data = nullable re
    rw [hb]
    rfl
  refine ⟨?_, ?_, ?_⟩
  · intro hb hnull res hres hmem
    simp only [matchHospitalsRe, ht, hc] at hres
    injection hres with hres
    rw [← hres] at hmem
    split at hmem
    · simp only [treatmentFilterRe, List.mem_filter] at hmem
      rw [hbt0 hb, hnull] at hmem
      exact Bool.noConfusion hmem.2
    · simp only [primaryFilterRe, List.mem_filter, Bool.and_eq_true] at hmem
      rw [hbt0 hb, hnull] at hmem
      exact Bool.noConfusion hmem.2.1
  · intro hb hnull hmem
    simp only [primaryFilterRe, List.mem_filter, Bool.and_eq_true] at hmem
    rw [hcity0 hb, hnull] at hmem
    exact Bool.noConfusion hmem.2.2
  · intro hb hnull
    rw [hcity0 hb, hnull]

/-- C5 amended witness: the empty-treatments record is excluded from
the returned results, the empty-city record is excluded from the
primary result for the literal query `mumbai`, and the same empty city
field passes the city check for the regex query `x*`. -/
theorem empty_field_excluded_witness :
    (strStrip noTreatmentsRecord.best_treatments = "" ∧
     strStrip noCityRecord.city = "" ∧
     compilePattern (strLower "cardiac") = some (litRegex "cardiac".data) ∧
     compilePattern (strLower "mumbai") = some (litRegex "mumbai".data) ∧
     nullable (litRegex "cardiac".data) = false ∧
     nullable (litRegex "mumbai".data) = false ∧
     matchHospitalsRe [loadRecord noTreatmentsRecord, apolloRecord]
       "cardiac" "mumbai" = Except.ok ([apolloRecord], false)) ∧
    loadRecord noTreatmentsRecord ∉ [apolloRecord] ∧
    loadRecord noCityRecord
      ∉ primaryFilterRe [loadRecord noCityRecord]
          (litRegex "cardiac".data) (litRegex "mumbai".data) ∧
    (compilePattern (strLower "x*") = some xStarRegex ∧
     nullable xStarRegex = true) ∧
    cityMatchRe xStarRegex (loadRecord noCityRecord) = true :=
  ⟨⟨by decide, by decide, by decide, by decide, by decide, by decide, by decide⟩,
   (empty_field_excluded [loadRecord noTreatmentsRecord, apolloRecord]
      "cardiac" "mumbai" (litRegex "cardiac".data) (litRegex "mumbai".data)
      (by decide) (by decide) noTreatmentsRecord).1 (by decide) (by decide)
      ([apolloRecord], false) (by decide),
   (empty_field_excluded [loadRecord noCityRecord] "cardiac" "mumbai"
      (litRegex "cardiac".data) (litRegex "mumbai".data)
      (by decide) (by decide) noCityRecord).2.1 (by decide) (by decide),
   ⟨by decide, by decide⟩,
   (empty_field_excluded [] "cardiac" "x*" (litRegex "cardiac".data) xStarRegex
      (by decide) (by decide) noCityRecord).2.2 (by decide) (by decide)⟩

/-- C6 counterexample: the branch without parentheses is keyed to a
missing `hospital_type` column, not to an empty tier value, so a record
with an empty tier cell is labelled `"name ()"`, not `"name"`. -/
theorem label_empty_tier_cex :
    untypedRecord.hospital_type = "" ∧
    hospital_info untypedRecord = "CityCare Hospital ()" ∧
    hospital_info untypedRecord ≠ untypedRecord.name := by
  decide

/-- C6 amended: the display label is always
`"{name} ({tier, title-cased})"`; with a known/non-empty tier this is the
label the claim states, and with an empty tier it degenerates to
`"{name} ()"` rather than `"{name}"`. -/
theorem hospital_info_format (r : HospitalRecord) :
    (r.hospital_type ≠ "" →
        hospital_info r = r.name ++ " (" ++ strTitle r.hospital_type ++ ")") ∧
    (r.hospital_type = "" → hospital_info r = r.name ++ " ()") := by
  constructor
  · intro _
    rfl
  · intro h
    unfold hospital_info
    rw [h]
    apply String.ext
    simp [strTitle, titleAux]

/-- C6 amended witness at a record with a non-empty tier and one with an
empty tier. -/
theorem hospital_info_format_witness :
    (apolloRecord.hospital_type ≠ "" ∧ untypedRecord.hospital_type = "") ∧
    hospital_info apolloRecord =
      apolloRecord.name ++ " (" ++ strTitle apolloRecord.hospital_type ++ ")" ∧
    hospital_info untypedRecord = untypedRecord.name ++ " ()" :=
  ⟨⟨by decide, by decide⟩,
   (hospital_info_format apolloRecord).1 (by decide),
   (hospital_info_format untypedRecord).2 (by decide)⟩

/-- C7: the matcher result is a sublist of the directory (stable filter,
original relative order, no re-sorting), and the display table truncates
it to `min 10` of its length, hence to at most 10 rows. -/
theorem matcher_order_cap (dir : List HospitalRecord) (t c : String) :
    (matchHospitals dir t c).1.Sublist dir ∧
    (nearby_display (matchHospitals dir t c).1).length
      = min 10 (matchHospitals dir t c).1.length ∧
    (nearby_display (matchHospitals dir t c).1).length ≤ 10 := by
  have hsub : (matchHospitals dir t c).1.Sublist dir := by
    simp only [matchHospitals]
    split
    · exact List.filter_sublist dir
    · exact List.filter_sublist dir
  refine ⟨hsub, ?_, ?_⟩
  · simp [nearby_display, List.length_take, List.length_map]
  · simp only [nearby_display, List.length_take]
    exact min_le_left _ _

lemma estimated_cost_eq (T K s : String) (bmi : ℚ) (age : Int) :
    estimated_cost T K s bmi age =
      rangeAverage (baseRange T K)
      + (if s = "yes" then 1000 else 0)
      + (if bmi > 30 then 500 else 0)
      + (if age > 60 then 1000 else 0) := by
  simp only [estimated_cost, rangeAverage]
  split_ifs <;> ring

/-- C1: for every treatment key and tier, the point estimate is the range
average plus independent additive adjustments: with smoker not `"yes"`,
bmi at most 30 and age at most 60 it equals `(min + max) / 2`; smoker
adds exactly 1000, bmi above 30 adds exactly 500, age above 60 adds
exactly 1000, and all three together add exactly 2500 irrespective of
order; concretely, `dental care`/`private` has range `(2000, 2500)` and
estimates 2250 (smoker no, bmi 22, age 30) and 3250 (same with smoker
yes). -/
theorem estimator_additive :
    (∀ T ∈ treatmentKeys, ∀ K ∈ tierNames, ∀ (s : String) (bmi : ℚ) (age : Int),
        estimated_cost T K s bmi age =
          rangeAverage (baseRange T K)
          + (if s = "yes" then 1000 else 0)
          + (if bmi > 30 then 500 else 0)
          + (if age > 60 then 1000 else 0)) ∧
    (∀ T ∈ treatmentKeys, ∀ K ∈ tierNames, ∀ (s : String) (bmi : ℚ) (age : Int),
        s ≠ "yes" → bmi ≤ 30 → age ≤ 60 →
        estimated_cost T K s bmi age = rangeAverage (baseRange T K)) ∧
    (∀ T ∈ treatmentKeys, ∀ K ∈ tierNames, ∀ (bmi : ℚ) (age : Int),
        bmi > 30 → age > 60 →
        estimated_cost T K "yes" bmi age = rangeAverage (baseRange T K) + 2500) ∧
    (∀ T ∈ treatmentKeys, ∀ K ∈ tierNames, ∀ (bmi : ℚ) (age : Int),
        estimated_cost T K "yes" bmi age = estimated_cost T K "no" bmi age + 1000) ∧
    (∀ T ∈ treatmentKeys, ∀ K ∈ tierNames, ∀ (s : String) (age : Int),
        estimated_cost T K s 31 age = estimated_cost T K s 22 age + 500) ∧
    (∀ T ∈ treatmentKeys, ∀ K ∈ tierNames, ∀ (s : String) (bmi : ℚ),
        estimated_cost T K s bmi 61 = estimated_cost T K s bmi 30 + 1000) ∧
    baseRange "dental care" "private" = (2000, 2500) ∧
    estimated_cost "dental care" "private" "no" 22 30 = 2250 ∧
    estimated_cost "dental care" "private" "yes" 22 30 = 3250 := by
  have hbase : baseRange "dental care" "private" = (2000, 2500) := by decide
  refine ⟨?_, ?_, ?_, ?_, ?_, ?_, hbase, ?_, ?_⟩
  · intro T _ K _ s bmi age
    exact estimated_cost_eq T K s bmi age
  · intro T _ K _ s bmi age hs hb ha
    rw [estimated_cost_eq, if_neg hs, if_neg (not_lt.mpr hb), if_neg (not_lt.mpr ha)]
    ring
  · intro T _ K _ bmi age hb ha
    rw [estimated_cost_eq, if_pos rfl, if_pos hb, if_pos ha]
    ring
  · intro T _ K _ bmi age
    rw [estimated_cost_eq, estimated_cost_eq, if_pos rfl,
      if_neg (by decide : ¬("no" : String) = "yes")]
    ring
  · intro T _ K _ s age
    rw [estimated_cost_eq, estimated_cost_eq,
      if_pos (by norm_num : (31 : ℚ) > 30),
      if_neg (by norm_num : ¬((22 : ℚ) > 30))]
    ring
  · intro T _ K _ s bmi
    rw [estimated_cost_eq, estimated_cost_eq]
    norm_num
  · rw [estimated_cost_eq, hbase]
    norm_num [rangeAverage]
    decide
  · rw [estimated_cost_eq, hbase]
    norm_num [rangeAverage]

/-- C1 witness: `cold/flu` at a public hospital with no adjustment
applies gives the plain range average. -/
theorem estimator_additive_witness :
    ("cold/flu" ∈ treatmentKeys ∧ "public" ∈ tierNames ∧
      ("no" : String) ≠ "yes" ∧ (22 : ℚ) ≤ 30 ∧ (30 : Int) ≤ 60) ∧
    estimated_cost "cold/flu" "public" "no" 22 30 =
      rangeAverage (baseRange "cold/flu" "public") :=
  ⟨⟨by decide, by decide, by decide, by norm_num, by decide⟩,
   estimator_additive.2.1 "cold/flu" (by decide) "public" (by decide) "no" 22 30
     (by decide) (by norm_num) (by decide)⟩

/-- C8: the cost table has an entry for each of its eight treatment keys
and each of the three tiers, every entry satisfies `0 ≤ min ≤ max`, and
for a validated treatment and tier the tier lookup returns that entry, so
the `(0, 0)` default of `.get` is never used. -/
theorem table_total_wellformed :
    ∀ T ∈ treatmentKeys, ∀ K ∈ tierNames,
      ((lookupTreatment T).getD []).lookup K = some (baseRange T K) ∧
      0 ≤ (baseRange T K).1 ∧ (baseRange T K).1 ≤ (baseRange T K).2 := by
  decide

/-- C8 witness at `cardiac`/`specialty`. -/
theorem table_total_wellformed_witness :
    ("cardiac" ∈ treatmentKeys ∧ "specialty" ∈ tierNames) ∧
    (((lookupTreatment "cardiac").getD []).lookup "specialty"
        = some (baseRange "cardiac" "specialty") ∧
      0 ≤ (baseRange "cardiac" "specialty").1 ∧
      (baseRange "cardiac" "specialty").1 ≤ (baseRange "cardiac" "specialty").2) :=
  ⟨⟨by decide, by decide⟩,
   table_total_wellformed "cardiac" (by decide) "specialty" (by decide)⟩

lemma run_eval1 :
    run (some 30) (some 22) "no" "mumbai" "dental care" "private" []
      = Except.ok (runSummary1, Except.ok runMatch0) := by
  have hbase : baseRange "dental care" "private" = (2000, 2500) := by decide
  have hest : estimated_cost "dental care" "private" "no" 22 30 = 2250 := by
    simp only [estimated_cost, hbase]
    norm_num
    decide
  have hmatch : matchHospitalsRe [] "dental care" "mumbai"
      = Except.ok ([], true) := by decide
  have hT : strLower (strStrip "dental care") = "dental care" := rfl
  have hK : strLower (strStrip "private") = "private" := rfl
  have hS : strLower (strStrip "no") = "no" := rfl
  have hC : strLower (strStrip "mumbai") = "mumbai" := rfl
  simp only [run, hT, hK, hS, hC]
  rw [if_neg (by decide), if_neg (by decide), hest, hbase, hmatch]
  rfl

lemma run_eval2 :
    run (some 70) (some 40) "yes" "mumbai" "dental care" "private" []
      = Except.ok (runSummary2, Except.ok runMatch0) := by
  have hbase : baseRange "dental care" "private" = (2000, 2500) := by decide
  have hest : estimated_cost "dental care" "private" "yes" 40 70 = 4750 := by
    simp only [estimated_cost, hbase]
    norm_num
  have hmatch : matchHospitalsRe [] "dental care" "mumbai"
      = Except.ok ([], true) := by decide
  have hT : strLower (strStrip "dental care") = "dental care" := rfl
  have hK : strLower (strStrip "private") = "private" := rfl
  have hS : strLower (strStrip "yes") = "yes" := rfl
  have hC : strLower (strStrip "mumbai") = "mumbai" := rfl
  simp only [run, hT, hK, hS, hC]
  rw [if_neg (by decide), if_neg (by decide), hest, hbase, hmatch]
  rfl

/-- C3: whenever validation succeeds, the printed summary shows exactly
the unadjusted base range of the table for the chosen treatment and
tier; two such runs differing only in smoker, bmi and age show the same
range. -/
theorem range_is_base_unadjusted
    (age1 age2 : Int) (bmi1 bmi2 : ℚ) (s1 s2 cIn tIn kIn : String)
    (dir : List HospitalRecord) (out1 out2 : Summary × Except RegexError MatchBlock)
    (h1 : run (some age1) (some bmi1) s1 cIn tIn kIn dir = Except.ok out1)
    (h2 : run (some age2) (some bmi2) s2 cIn tIn kIn dir = Except.ok out2) :
    out1.1.range = baseRange (strLower (strStrip tIn)) (strLower (strStrip kIn)) ∧
    out1.1.range = out2.1.range := by
  have r1 := run_ok_range h1
  have r2 := run_ok_range h2
  exact ⟨r1, r1.trans r2.symm⟩

/-- C3 witness: the no-adjustment run and the all-adjustments run on
`dental care`/`private` both display the base range `(2000, 2500)`. -/
theorem range_is_base_unadjusted_witness :
    runSummary1.range
      = baseRange (strLower (strStrip "dental care")) (strLower (strStrip "private")) ∧
    runSummary1.range = runSummary2.range :=
  range_is_base_unadjusted 30 70 22 40 "no" "yes" "mumbai" "dental care" "private"
    [] (runSummary1, Except.ok runMatch0) (runSummary2, Except.ok runMatch0)
    run_eval1 run_eval2

end CostEstimator
